import Mathlib

/-!
Verification of the gpt-mission-planner specification against the repository.

The repository ships the README (which fixes the TCP message format), the
deployment files, the configuration, a sandbox notebook and the web client.
The Python application sources (network interface, orchestration loop,
validator, verifier) are not among the staged files, so those components are
modelled from the specification text; each such definition carries a doc
comment starting with "Modelled from the spec:".  The notebook function
`validate_xml` and the web client's saved-mission store are embedded from
the staged sources directly.
-/

/-! ## Wire protocol (README, "TCP Message Format" / spec section 6) -/

/-- Big-endian 4-byte encoding of an unsigned 32-bit length, as produced by
`struct.pack` with format `!I`; each byte is reduced mod 256. -/
def u32be (n : Nat) : List Nat :=
  [n / 2 ^ 24 % 256, n / 2 ^ 16 % 256, n / 2 ^ 8 % 256, n % 256]

/-- Decode four big-endian bytes into the length they stand for. -/
def readU32 (a b c d : Nat) : Nat :=
  a * 2 ^ 24 + b * 2 ^ 16 + c * 2 ^ 8 + d

/-- A tree point record accompanying a mission: the latitude/longitude pair
serialised into the JSON payload of the frame. -/
structure TreePoint where
  lat : Int
  lon : Int
deriving DecidableEq, Repr

/-- Modelled from the spec: the JSON serialisation of one tree-point record,
as in the wire-format example `points = [\x7blat:1,lon:2\x7d]`.  The
network-interface source is not among the staged files; the README fixes
field 4 as a "UTF-8 JSON array of tree-point dictionaries". -/
def serializePoint (p : TreePoint) : String :=
  "\x7b\"lat\":" ++ toString p.lat ++ ",\"lon\":" ++ toString p.lon ++ "\x7d"

/-- Modelled from the spec: the JSON array of tree-point records. -/
def serializePoints (ps : List TreePoint) : String :=
  "[" ++ String.intercalate "," (ps.map serializePoint) ++ "]"

/-- The bytes of a string.  Every character the serialiser emits is ASCII,
so its UTF-8 bytes coincide with the character code points. -/
def strBytes (s : String) : List Nat :=
  s.data.map Char.toNat

/-- The JSON payload bytes for a point list. -/
def jsonBytes (ps : List TreePoint) : List Nat :=
  strBytes (serializePoints ps)

/-- The artifact delivered to the robot: the final document bytes plus an
optional ordered sequence of tree-point records. -/
structure MissionArtifact where
  xml : List Nat
  points : List TreePoint
deriving DecidableEq, Repr

/-- What one delivery writes to the socket, and whether the connection is
closed afterwards. -/
structure SendResult where
  bytes : List Nat
  closed : Bool
deriving DecidableEq, Repr

/-- Modelled from the spec: `Transport.send(artifact, host, port)` frames the
artifact per the README's TCP message format: a 4-byte big-endian length,
the raw XML bytes, and — only when the point list is non-empty — a second
4-byte big-endian length followed by the UTF-8 JSON payload; afterwards the
socket is closed.  The transport source is not among the staged files. -/
def Transport.send (a : MissionArtifact) (host : String) (port : Nat) : SendResult :=
  let _ := host
  let _ := port
  if a.points.isEmpty then
    { bytes := u32be a.xml.length ++ a.xml, closed := true }
  else
    let js := jsonBytes a.points
    { bytes := u32be a.xml.length ++ a.xml ++ u32be js.length ++ js, closed := true }

/-- One step of the reader side of the protocol: read a 4-byte big-endian
length, then that many payload bytes; `none` when the stream ends first. -/
def readFrame : List Nat → Option (List Nat × List Nat)
  | a :: b :: c :: d :: rest =>
      let n := readU32 a b c d
      if n ≤ rest.length then some (rest.take n, rest.drop n) else none
  | _ => none

theorem readU32_u32be (n : Nat) (h : n < 2 ^ 32) :
    readU32 (n / 2 ^ 24 % 256) (n / 2 ^ 16 % 256) (n / 2 ^ 8 % 256) (n % 256) = n := by
  unfold readU32
  omega

theorem readFrame_u32be (payload rest : List Nat) (h : payload.length < 2 ^ 32) :
    readFrame (u32be payload.length ++ payload ++ rest) = some (payload, rest) := by
  simp only [u32be, List.cons_append, List.nil_append, readFrame, List.append_assoc]
  rw [readU32_u32be payload.length h]
  rw [if_pos (by simp)]
  rw [List.take_left, List.drop_left]

/-- C1: with an empty point list, `Transport.send` writes exactly the 4-byte
big-endian length of the XML followed by the raw XML bytes — `4 + len(xml)`
bytes, no third or fourth field — and closes the connection; for a 10-byte
XML payload the frame starts with the bytes 0, 0, 0, 10. -/
theorem transport_send_empty_points (a : MissionArtifact) (host : String) (port : Nat)
    (hp : a.points = []) :
    (Transport.send a host port).bytes = u32be a.xml.length ++ a.xml ∧
    (Transport.send a host port).bytes.length = 4 + a.xml.length ∧
    (Transport.send a host port).closed = true ∧
    (a.xml.length = 10 →
      (Transport.send a host port).bytes = 0 :: 0 :: 0 :: 10 :: a.xml) := by
  have hb : (Transport.send a host port).bytes = u32be a.xml.length ++ a.xml := by
    simp [Transport.send, hp]
  refine ⟨hb, ?_, ?_, ?_⟩
  · rw [hb]
    simp only [List.length_append, u32be, List.length_cons, List.length_nil]
  · simp [Transport.send, hp]
  · intro h10
    rw [hb, h10]
    rfl

/-- C1 witness: a concrete artifact with a 10-byte XML payload and no
points. -/
theorem transport_send_empty_points_witness :
    (Transport.send ⟨[60, 77, 62, 97, 98, 99, 100, 60, 47, 62], []⟩ "127.0.0.1" 12346).bytes
        = u32be 10 ++ [60, 77, 62, 97, 98, 99, 100, 60, 47, 62] ∧
    (Transport.send ⟨[60, 77, 62, 97, 98, 99, 100, 60, 47, 62], []⟩ "127.0.0.1" 12346).bytes.length
        = 4 + 10 ∧
    (Transport.send ⟨[60, 77, 62, 97, 98, 99, 100, 60, 47, 62], []⟩ "127.0.0.1" 12346).closed
        = true ∧
    ((10 : Nat) = 10 →
      (Transport.send ⟨[60, 77, 62, 97, 98, 99, 100, 60, 47, 62], []⟩ "127.0.0.1" 12346).bytes
        = 0 :: 0 :: 0 :: 10 :: [60, 77, 62, 97, 98, 99, 100, 60, 47, 62]) :=
  transport_send_empty_points ⟨[60, 77, 62, 97, 98, 99, 100, 60, 47, 62], []⟩
    "127.0.0.1" 12346 rfl

/-- C2: with a non-empty point list, `Transport.send` writes the big-endian
XML length, the XML bytes, the big-endian JSON length and the JSON payload,
in that order — `4 + len(xml) + 4 + len(json)` bytes; for a 10-byte XML and
a 20-byte JSON payload the frame is `[0,0,0,10] ++ xml ++ [0,0,0,20] ++
json`. -/
theorem transport_send_with_points (a : MissionArtifact) (host : String) (port : Nat)
    (hp : a.points ≠ []) :
    (Transport.send a host port).bytes
      = u32be a.xml.length ++ a.xml
        ++ u32be (jsonBytes a.points).length ++ jsonBytes a.points ∧
    (Transport.send a host port).bytes.length
      = 4 + a.xml.length + 4 + (jsonBytes a.points).length ∧
    (Transport.send a host port).closed = true ∧
    (a.xml.length = 10 → (jsonBytes a.points).length = 20 →
      (Transport.send a host port).bytes
        = 0 :: 0 :: 0 :: 10 :: (a.xml ++ 0 :: 0 :: 0 :: 20 :: jsonBytes a.points)) := by
  have hne : a.points.isEmpty = false := by
    simpa [List.isEmpty_iff] using hp
  have hb : (Transport.send a host port).bytes
      = u32be a.xml.length ++ a.xml
        ++ u32be (jsonBytes a.points).length ++ jsonBytes a.points := by
    simp [Transport.send, hne]
  refine ⟨hb, ?_, ?_, ?_⟩
  · rw [hb]
    simp only [List.length_append, u32be, List.length_cons, List.length_nil]
  · simp [Transport.send, hne]
  · intro h10 h20
    rw [hb, h10, h20]
    simp [u32be]

/-- C2 witness: a concrete artifact with a 10-byte XML payload and one tree
point whose JSON serialisation is exactly 20 bytes. -/
theorem transport_send_with_points_witness :
    (Transport.send ⟨[60, 77, 62, 97, 98, 99, 100, 60, 47, 62], [⟨10, 2⟩]⟩
        "127.0.0.1" 12346).bytes
      = u32be 10 ++ [60, 77, 62, 97, 98, 99, 100, 60, 47, 62]
        ++ u32be 20 ++ jsonBytes [⟨10, 2⟩] ∧
    (Transport.send ⟨[60, 77, 62, 97, 98, 99, 100, 60, 47, 62], [⟨10, 2⟩]⟩
        "127.0.0.1" 12346).bytes.length = 4 + 10 + 4 + 20 ∧
    (Transport.send ⟨[60, 77, 62, 97, 98, 99, 100, 60, 47, 62], [⟨10, 2⟩]⟩
        "127.0.0.1" 12346).bytes
      = 0 :: 0 :: 0 :: 10 ::
          ([60, 77, 62, 97, 98, 99, 100, 60, 47, 62]
            ++ 0 :: 0 :: 0 :: 20 :: jsonBytes [⟨10, 2⟩]) := by
  have h := transport_send_with_points
    ⟨[60, 77, 62, 97, 98, 99, 100, 60, 47, 62], [⟨10, 2⟩]⟩ "127.0.0.1" 12346 (by decide)
  have h20 : (jsonBytes ([⟨10, 2⟩] : List TreePoint)).length = 20 := by decide
  refine ⟨?_, ?_, ?_⟩
  · have := h.1
    rwa [show ([60, 77, 62, 97, 98, 99, 100, 60, 47, 62] : List Nat).length = 10 from rfl,
         h20] at this
  · have := h.2.1
    rwa [show ([60, 77, 62, 97, 98, 99, 100, 60, 47, 62] : List Nat).length = 10 from rfl,
         h20] at this
  · exact h.2.2.2 rfl h20

/-- C3: a reader that repeatedly reads a 4-byte big-endian length and then
that many bytes from the stream `Transport.send` produced reconstructs the
XML payload and, when the point list is non-empty, the JSON payload
byte-identically; with an empty point list the next read finds the closed
stream empty. -/
theorem transport_frame_roundtrip (a : MissionArtifact) (host : String) (port : Nat)
    (hx : a.xml.length < 2 ^ 32) (hj : (jsonBytes a.points).length < 2 ^ 32) :
    (a.points = [] →
       readFrame (Transport.send a host port).bytes = some (a.xml, []) ∧
       readFrame ([] : List Nat) = none) ∧
    (a.points ≠ [] →
       readFrame (Transport.send a host port).bytes
         = some (a.xml, u32be (jsonBytes a.points).length ++ jsonBytes a.points) ∧
       readFrame (u32be (jsonBytes a.points).length ++ jsonBytes a.points)
         = some (jsonBytes a.points, [])) := by
  constructor
  · intro hp
    have hb : (Transport.send a host port).bytes = u32be a.xml.length ++ a.xml := by
      simp [Transport.send, hp]
    constructor
    · rw [hb, ← List.append_nil (u32be a.xml.length ++ a.xml), List.append_assoc,
          List.append_nil]
      have := readFrame_u32be a.xml [] hx
      simpa using this
    · rfl
  · intro hp
    have hne : a.points.isEmpty = false := by
      simpa [List.isEmpty_iff] using hp
    have hb : (Transport.send a host port).bytes
        = u32be a.xml.length ++ a.xml
          ++ (u32be (jsonBytes a.points).length ++ jsonBytes a.points) := by
      simp [Transport.send, hne]
    constructor
    · rw [hb]
      exact readFrame_u32be a.xml (u32be (jsonBytes a.points).length ++ jsonBytes a.points) hx
    · have := readFrame_u32be (jsonBytes a.points) [] hj
      simpa using this

/-- C3 witness: the round trip at a concrete artifact carrying one tree
point. -/
theorem transport_frame_roundtrip_witness :
    readFrame (Transport.send ⟨[60, 97, 62], [⟨10, 2⟩]⟩ "127.0.0.1" 12346).bytes
      = some ([60, 97, 62], u32be (jsonBytes [⟨10, 2⟩]).length ++ jsonBytes [⟨10, 2⟩]) ∧
    readFrame (u32be (jsonBytes [⟨10, 2⟩]).length ++ jsonBytes [⟨10, 2⟩])
      = some (jsonBytes [⟨10, 2⟩], []) :=
  (transport_frame_roundtrip ⟨[60, 97, 62], [⟨10, 2⟩]⟩ "127.0.0.1" 12346
    (by decide) (by decide)).2 (by decide)

/-! ## Task documents and the Validator (spec sections 3 and 4.2) -/

/-- Modelled from the spec: a node of the `ActionSequence` — either a
reference to an `AtomicTask` by ID, or a conditional node whose branches
pair a predicate value (the boolean `ReturnStatus` of the example template)
with a nested sequence, in document order. -/
inductive SeqNode where
  | taskRef (id : String)
  | conditional (branches : List (Bool × List SeqNode))
deriving Repr

mutual

/-- The task IDs one node references, conditional branches included. -/
def nodeRefs : SeqNode → List String
  | .taskRef id => [id]
  | .conditional bs => branchesRefs bs

/-- The task IDs a branch list references, in document order. -/
def branchesRefs : List (Bool × List SeqNode) → List String
  | [] => []
  | b :: rest => seqRefs b.2 ++ branchesRefs rest

/-- The task IDs a sequence references, in document order. -/
def seqRefs : List SeqNode → List String
  | [] => []
  | n :: rest => nodeRefs n ++ seqRefs rest

end

/-- Modelled from the spec: a task template as the Validator sees it — the
declared `AtomicTask` IDs and the `ActionSequence`. -/
structure TaskTemplate where
  atomicIds : List String
  sequence : List SeqNode

/-- The three causes the spec's `ValidationResult` distinguishes. -/
inductive ViolationCause where
  | notWellFormed
  | schemaViolation
  | danglingReference
deriving DecidableEq, Repr

/-- One violation: its cause, a location and a verbatim message. -/
structure Violation where
  cause : ViolationCause
  location : String
  message : String
deriving DecidableEq, Repr

/-- Pass/fail plus the ordered violations, as the spec's `ValidationResult`. -/
structure ValidationResult where
  passed : Bool
  violations : List Violation
deriving DecidableEq, Repr

/-- The referenced IDs that resolve to no declared `AtomicTask` ID. -/
def danglingRefs (t : TaskTemplate) : List String :=
  (seqRefs t.sequence).filter (fun id => !(t.atomicIds.contains id))

/-- Modelled from the spec: the Validator runs its checks in order —
well-formedness, union-schema conformance, then the dangling-reference
check that every `ActionSequence`/conditional-branch reference resolves to
a declared `AtomicTask` ID.  Well-formedness and schema conformance are the
verdicts of the XML library on the raw bytes, passed in as booleans; the
validator source is not among the staged files. -/
def validate (wellFormed : Bool) (schemaOk : Bool) (t : TaskTemplate) : ValidationResult :=
  if !wellFormed then
    { passed := false,
      violations := [⟨.notWellFormed, "document", "document is not well-formed"⟩] }
  else if !schemaOk then
    { passed := false,
      violations := [⟨.schemaViolation, "document", "schema violation"⟩] }
  else
    let dangling := danglingRefs t
    if dangling.isEmpty then
      { passed := true, violations := [] }
    else
      { passed := false,
        violations := dangling.map
          (fun id => ⟨.danglingReference, id, "undeclared task ID " ++ id⟩) }

/-- C4: the Validator passes exactly the documents that are well-formed,
conform to the union schema and whose every `ActionSequence` reference
(conditional branches included) resolves to a declared `AtomicTask` ID;
and its checks fire in the order well-formedness, schema conformance,
dangling references. -/
theorem validator_pass_iff (wf sv : Bool) (t : TaskTemplate) :
    ((validate wf sv t).passed = true ↔
      wf = true ∧ sv = true ∧ ∀ id ∈ seqRefs t.sequence, id ∈ t.atomicIds) ∧
    (wf = false →
      (validate wf sv t).violations.map Violation.cause = [.notWellFormed]) ∧
    (wf = true → sv = false →
      (validate wf sv t).violations.map Violation.cause = [.schemaViolation]) ∧
    (wf = true → sv = true →
      ∀ v ∈ (validate wf sv t).violations, v.cause = .danglingReference) := by
  refine ⟨?_, ?_, ?_, ?_⟩
  · cases wf with
    | false => simp [validate]
    | true =>
      cases sv with
      | false => simp [validate]
      | true =>
        simp only [validate, Bool.not_true, Bool.false_eq_true, if_false, true_and]
        by_cases h : (danglingRefs t).isEmpty
        · rw [if_pos h]
          simp only [true_iff]
          rw [List.isEmpty_iff] at h
          intro id hid
          by_contra hmem
          have : id ∈ danglingRefs t := by
            simp [danglingRefs, List.mem_filter, hid, hmem]
          simp [h] at this
        · rw [if_neg h]
          simp only [Bool.false_eq_true, false_iff]
          intro hall
          apply h
          rw [List.isEmpty_iff, danglingRefs, List.filter_eq_nil_iff]
          intro id hid
          simp [hall id hid]
  · intro hwf
    simp [validate, hwf]
  · intro hwf hsv
    simp [validate, hwf, hsv]
  · intro hwf hsv
    simp only [validate, hwf, hsv, Bool.not_true, Bool.false_eq_true, if_false]
    by_cases h : (danglingRefs t).isEmpty
    · rw [if_pos h]
      simp
    · rw [if_neg h]
      intro v hv
      simp only [List.mem_map] at hv
      obtain ⟨id, _, rfl⟩ := hv
      rfl

/-! ## Verifier: verdicts and checker interpretation (spec sections 3, 4.3) -/

/-- The verdict of the external model checker, as the spec's
`VerificationVerdict`: a satisfied flag and, when violated, the ordered
counterexample trace of state labels. -/
structure VerificationVerdict where
  satisfied : Bool
  counterexample : List String
deriving DecidableEq, Repr

/-- The verdict invariant the spec states: a violated verdict carries a
non-empty trace, a satisfied one an empty trace. -/
def VerificationVerdict.wf (v : VerificationVerdict) : Prop :=
  (v.satisfied = false → v.counterexample ≠ []) ∧
  (v.satisfied = true → v.counterexample = [])

/-- The raw outcome of invoking the external checker: a satisfied run, a
violated run with the trace it printed, or a tool-level failure. -/
inductive CheckerOutput where
  | satisfiedRun
  | violatedRun (trace : List String)
  | toolFailure (msg : String)
deriving DecidableEq, Repr

/-- Modelled from the spec: interpreting the checker's raw output.  A tool
failure, and a violated run whose trace is missing, are errors distinct
from any verdict — never reported as a violated verdict; the verifier
source is not among the staged files. -/
def interpretChecker : CheckerOutput → Except String VerificationVerdict
  | .satisfiedRun => .ok ⟨true, []⟩
  | .violatedRun trace =>
      if trace.isEmpty then .error "VerificationToolError: no counterexample trace"
      else .ok ⟨false, trace⟩
  | .toolFailure m => .error m

/-! ## Orchestrator (spec sections 4.1 and 7) -/

/-- What one generation attempt came to, after validation and (when
enabled) verification of the fresh candidate. -/
inductive AttemptOutcome where
  | accepted
  | validationFailed (v : Violation)
  | verificationViolated (trace : List String)
  | translationFailed (msg : String)
  | toolFailed (msg : String)
deriving Repr

/-- The outcomes the spec recovers locally by repairing: validation
failures and violated verdicts.  Translation and tool errors are fatal. -/
def AttemptOutcome.isRetriable : AttemptOutcome → Bool
  | .validationFailed _ => true
  | .verificationViolated _ => true
  | _ => false

/-- The terminal error kinds of the spec's taxonomy (section 7). -/
inductive TerminalErrorKind where
  | generationExhausted
  | schemaInvalid
  | structuralReferenceError
  | translationError
  | verificationToolError
  | verificationFailed
  | deliveryError
deriving DecidableEq, Repr

/-- What a whole orchestration run returns. -/
inductive RunResult where
  | missionAccepted (attempt : Nat)
  | failed (kind : TerminalErrorKind) (detail : String)
deriving DecidableEq, Repr

/-- Modelled from the spec: the Orchestrator's generate→validate→verify
loop.  `gen i` is what attempt `i` comes to (the generation capability and
the downstream checks are external collaborators); `fuel` is the remaining
retry budget and `used` the attempts issued so far.  Retriable failures
re-enter drafting while budget remains; exhaustion returns
`GenerationExhausted`; translation and tool errors are fatal at once; the
orchestrator source is not among the staged files. -/
def runLoop (gen : Nat → AttemptOutcome) : Nat → Nat → RunResult × Nat
  | 0, used => (.failed .generationExhausted "retry budget exhausted", used)
  | fuel + 1, used =>
    match gen used with
    | .accepted => (.missionAccepted used, used + 1)
    | .validationFailed _ => runLoop gen fuel (used + 1)
    | .verificationViolated _ => runLoop gen fuel (used + 1)
    | .translationFailed m => (.failed .translationError m, used + 1)
    | .toolFailed m => (.failed .verificationToolError m, used + 1)

/-- Modelled from the spec: a run with the configured `max_retries` budget;
the second component counts the generation attempts issued. -/
def Orchestrator.run (gen : Nat → AttemptOutcome) (maxRetries : Nat) : RunResult × Nat :=
  runLoop gen maxRetries 0

theorem runLoop_used_le (gen : Nat → AttemptOutcome) :
    ∀ fuel used, (runLoop gen fuel used).2 ≤ used + fuel := by
  intro fuel
  induction fuel with
  | zero => intro used; simp [runLoop]
  | succ n ih =>
    intro used
    rw [runLoop]
    cases gen used with
    | accepted => simp
    | validationFailed v =>
        have := ih (used + 1)
        simpa [Nat.add_assoc, Nat.add_comm 1 n] using this
    | verificationViolated tr =>
        have := ih (used + 1)
        simpa [Nat.add_assoc, Nat.add_comm 1 n] using this
    | translationFailed m => simp
    | toolFailed m => simp

theorem runLoop_exhausts (gen : Nat → AttemptOutcome) :
    ∀ fuel used,
      (∀ i, used ≤ i → i < used + fuel → (gen i).isRetriable = true) →
      runLoop gen fuel used
        = (.failed .generationExhausted "retry budget exhausted", used + fuel) := by
  intro fuel
  induction fuel with
  | zero => intro used _; simp [runLoop]
  | succ n ih =>
    intro used hr
    have hru : (gen used).isRetriable = true := hr used le_rfl (by omega)
    rw [runLoop]
    cases hgu : gen used with
    | accepted => rw [hgu] at hru; simp [AttemptOutcome.isRetriable] at hru
    | validationFailed v =>
        have := ih (used + 1) (fun i h1 h2 => hr i (by omega) (by omega))
        rw [this]
        simp [Nat.add_assoc, Nat.add_comm 1 n]
    | verificationViolated tr =>
        have := ih (used + 1) (fun i h1 h2 => hr i (by omega) (by omega))
        rw [this]
        simp [Nat.add_assoc, Nat.add_comm 1 n]
    | translationFailed m => rw [hgu] at hru; simp [AttemptOutcome.isRetriable] at hru
    | toolFailed m => rw [hgu] at hru; simp [AttemptOutcome.isRetriable] at hru

/-- C5: the run loop issues at most `max_retries` generation attempts, and
when every attempt within the budget fails a retriable check it terminates
with `GenerationExhausted` after exactly the budgeted number of attempts,
attempting no more. -/
theorem orchestrator_respects_budget (gen : Nat → AttemptOutcome) (maxRetries : Nat) :
    (Orchestrator.run gen maxRetries).2 ≤ maxRetries ∧
    ((∀ i, i < maxRetries → (gen i).isRetriable = true) →
      Orchestrator.run gen maxRetries
        = (.failed .generationExhausted "retry budget exhausted", maxRetries)) := by
  constructor
  · have := runLoop_used_le gen maxRetries 0
    simpa [Orchestrator.run] using this
  · intro hall
    have := runLoop_exhausts gen maxRetries 0 (fun i h1 h2 => hall i (by omega))
    simpa [Orchestrator.run] using this

theorem runLoop_tool_error (gen : Nat → AttemptOutcome) (m : String) :
    ∀ fuel used k, used ≤ k → k < used + fuel →
      (∀ i, used ≤ i → i < k → (gen i).isRetriable = true) →
      gen k = .toolFailed m →
      runLoop gen fuel used = (.failed .verificationToolError m, k + 1) := by
  intro fuel
  induction fuel with
  | zero => intro used k h1 h2 _ _; omega
  | succ n ih =>
    intro used k h1 h2 hr hk
    by_cases hek : used = k
    · subst hek
      rw [runLoop, hk]
    · have hlt : used < k := lt_of_le_of_ne h1 hek
      have hru : (gen used).isRetriable = true := hr used le_rfl hlt
      rw [runLoop]
      cases hgu : gen used with
      | accepted => rw [hgu] at hru; simp [AttemptOutcome.isRetriable] at hru
      | validationFailed v =>
          exact ih (used + 1) k hlt (by omega) (fun i hi1 hi2 => hr i (by omega) hi2) hk
      | verificationViolated tr =>
          exact ih (used + 1) k hlt (by omega) (fun i hi1 hi2 => hr i (by omega) hi2) hk
      | translationFailed s => rw [hgu] at hru; simp [AttemptOutcome.isRetriable] at hru
      | toolFailed s => rw [hgu] at hru; simp [AttemptOutcome.isRetriable] at hru

/-- C7: a checker tool failure at an attempt within the budget terminates
the run at once — no further generation attempt is issued — with the
`VerificationToolError` kind; a tool failure is interpreted as an error,
never as a violated verdict; and the `VerificationFailed`,
`TranslationError` and `VerificationToolError` kinds are pairwise
distinct. -/
theorem verification_tool_error_fatal (gen : Nat → AttemptOutcome) (b k : Nat) (m : String)
    (hk : k < b) (hr : ∀ i, i < k → (gen i).isRetriable = true)
    (hg : gen k = .toolFailed m) :
    Orchestrator.run gen b = (.failed .verificationToolError m, k + 1) ∧
    (∀ s, interpretChecker (.toolFailure s) = .error s) ∧
    (∀ s v, interpretChecker (.toolFailure s) ≠ .ok v) ∧
    TerminalErrorKind.verificationToolError ≠ .verificationFailed ∧
    TerminalErrorKind.verificationToolError ≠ .translationError ∧
    TerminalErrorKind.translationError ≠ .verificationFailed := by
  refine ⟨?_, fun s => rfl, fun s v => by simp [interpretChecker], by decide, by decide,
    by decide⟩
  exact runLoop_tool_error gen m b 0 k (Nat.zero_le k) (by omega)
    (fun i _ hi => hr i hi) hg

/-- C7 witness: a concrete run whose first attempt fails validation and
whose second attempt hits a checker tool failure inside a budget of 5. -/
theorem verification_tool_error_fatal_witness :
    Orchestrator.run
        (fun i => if i = 0
          then .validationFailed ⟨.schemaViolation, "document", "schema violation"⟩
          else .toolFailed "spin unavailable") 5
      = (.failed .verificationToolError "spin unavailable", 2) ∧
    (∀ s, interpretChecker (.toolFailure s) = .error s) ∧
    (∀ s v, interpretChecker (.toolFailure s) ≠ .ok v) ∧
    TerminalErrorKind.verificationToolError ≠ .verificationFailed ∧
    TerminalErrorKind.verificationToolError ≠ .translationError ∧
    TerminalErrorKind.translationError ≠ .verificationFailed :=
  verification_tool_error_fatal
    (fun i => if i = 0
      then .validationFailed ⟨.schemaViolation, "document", "schema violation"⟩
      else .toolFailed "spin unavailable") 5 1 "spin unavailable"
    (by omega)
    (fun i hi => by
      have : i = 0 := by omega
      subst this
      rfl)
    rfl

/-- C8: every verdict `interpretChecker` produces satisfies the invariant —
a violated verdict carries a non-empty counterexample trace (kept verbatim,
so in the checker's order), a satisfied verdict an empty one. -/
theorem verdict_invariant (o : CheckerOutput) (v : VerificationVerdict)
    (h : interpretChecker o = .ok v) :
    v.wf ∧ (∀ t, o = .violatedRun t → v.counterexample = t) := by
  cases o with
  | satisfiedRun =>
      simp only [interpretChecker, Except.ok.injEq] at h
      subst h
      exact ⟨⟨by simp, fun _ => rfl⟩, fun t ht => by cases ht⟩
  | violatedRun trace =>
      simp only [interpretChecker] at h
      by_cases he : trace.isEmpty
      · rw [if_pos he] at h
        cases h
      · rw [if_neg he] at h
        simp only [Except.ok.injEq] at h
        subst h
        refine ⟨⟨fun _ => ?_, fun hs => by cases hs⟩, fun t ht => by cases ht; rfl⟩
        simpa [List.isEmpty_iff] using he
  | toolFailure m => cases h

/-- C8 witness: the verdict of a concrete violated run with a two-state
trace. -/
theorem verdict_invariant_witness :
    VerificationVerdict.wf ⟨false, ["drafting", "fault"]⟩ ∧
    (∀ t, CheckerOutput.violatedRun ["drafting", "fault"] = .violatedRun t →
      (VerificationVerdict.mk false ["drafting", "fault"]).counterexample = t) :=
  verdict_invariant (.violatedRun ["drafting", "fault"]) ⟨false, ["drafting", "fault"]⟩ rfl

/-! ## Verifier: conditional-branch translation (spec section 4.3) -/

/-- An edge of the `VerificationModel`: source state, the predicate value
guarding it (none on unconditional sequence edges), destination state. -/
structure Edge where
  src : String
  guard : Option Bool
  dst : String
deriving DecidableEq, Repr

/-- The first branch, in document order, whose predicate matches `v`. -/
def firstBranch (branches : List (Bool × List SeqNode)) (v : Bool) :
    Option (Bool × List SeqNode) :=
  branches.find? (fun b => b.1 == v)

/-- Modelled from the spec: the edge a branch point emits for one predicate
value — the first branch matching that value wins, in document order; a
value matching no branch is a `TranslationError`.  The verifier source is
not among the staged files. -/
def condEdge (src : String) (branches : List (Bool × List SeqNode))
    (entry : List SeqNode → String) (v : Bool) : Except String Edge :=
  match firstBranch branches v with
  | some b => .ok ⟨src, some v, entry b.2⟩
  | none => .error ("TranslationError: no branch matches predicate value " ++ toString v)

/-- Modelled from the spec: the outgoing edges of a conditional branch
point, one per predicate value; `entry` maps a branch body to the state its
edge enters (the recursive translation of the body). -/
def translateConditional (src : String) (branches : List (Bool × List SeqNode))
    (entry : List SeqNode → String) : Except String (List Edge) :=
  match condEdge src branches entry true, condEdge src branches entry false with
  | .ok e1, .ok e2 => .ok [e1, e2]
  | .error m, _ => .error m
  | _, .error m => .error m

theorem translateConditional_ok (src : String) (branches : List (Bool × List SeqNode))
    (entry : List SeqNode → String) (e1 e2 : Edge)
    (h1 : condEdge src branches entry true = .ok e1)
    (h2 : condEdge src branches entry false = .ok e2) :
    translateConditional src branches entry = .ok [e1, e2] := by
  unfold translateConditional
  rw [h1, h2]

theorem translateConditional_err1 (src : String) (branches : List (Bool × List SeqNode))
    (entry : List SeqNode → String) (m : String)
    (h1 : condEdge src branches entry true = .error m) :
    translateConditional src branches entry = .error m := by
  unfold translateConditional
  rw [h1]
  cases condEdge src branches entry false <;> rfl

theorem translateConditional_err2 (src : String) (branches : List (Bool × List SeqNode))
    (entry : List SeqNode → String) (e1 : Edge) (m : String)
    (h1 : condEdge src branches entry true = .ok e1)
    (h2 : condEdge src branches entry false = .error m) :
    translateConditional src branches entry = .error m := by
  unfold translateConditional
  rw [h1, h2]

/-- C6: when the branch list covers both predicate values, the branch point
translates to exactly two outgoing edges — one per predicate value, each
entering the body of the first branch (in document order) matching that
value; a predicate value matching no branch makes the whole translation a
`TranslationError`, not a verification failure. -/
theorem conditional_branch_translation (src : String)
    (branches : List (Bool × List SeqNode)) (entry : List SeqNode → String) :
    ((∃ b ∈ branches, b.1 = true) → (∃ b ∈ branches, b.1 = false) →
      ∃ bt bf, firstBranch branches true = some bt ∧ firstBranch branches false = some bf ∧
        translateConditional src branches entry
          = .ok [⟨src, some true, entry bt.2⟩, ⟨src, some false, entry bf.2⟩]) ∧
    (∀ v : Bool, (∀ b ∈ branches, b.1 ≠ v) →
      ∃ msg, translateConditional src branches entry = .error msg) := by
  constructor
  · intro h1 h2
    have ht : (firstBranch branches true).isSome := by
      rw [firstBranch, List.find?_isSome]
      obtain ⟨b, hb, hv⟩ := h1
      exact ⟨b, hb, by simp [hv]⟩
    have hf : (firstBranch branches false).isSome := by
      rw [firstBranch, List.find?_isSome]
      obtain ⟨b, hb, hv⟩ := h2
      exact ⟨b, hb, by simp [hv]⟩
    obtain ⟨bt, hbt⟩ := Option.isSome_iff_exists.mp ht
    obtain ⟨bf, hbf⟩ := Option.isSome_iff_exists.mp hf
    refine ⟨bt, bf, hbt, hbf, ?_⟩
    apply translateConditional_ok
    · rw [condEdge, hbt]
    · rw [condEdge, hbf]
  · intro v hv
    have hn : firstBranch branches v = none := by
      rw [firstBranch, List.find?_eq_none]
      intro b hb
      simp [hv b hb]
    have hce : condEdge src branches entry v
        = .error ("TranslationError: no branch matches predicate value " ++ toString v) := by
      rw [condEdge, hn]
    cases v with
    | true => exact ⟨_, translateConditional_err1 src branches entry _ hce⟩
    | false =>
        cases hct : condEdge src branches entry true with
        | ok e1 => exact ⟨_, translateConditional_err2 src branches entry e1 _ hct hce⟩
        | error m => exact ⟨m, translateConditional_err1 src branches entry m hct⟩

/-! ## The notebook validator (sandbox.ipynb, `validate_xml`) -/

/-- A Python exception as `validate_xml` classifies it: an
`etree.XMLSchemaError`, or any other exception, with its string rendering. -/
inductive PyExc where
  | xmlSchemaError (msg : String)
  | otherError (msg : String)
deriving DecidableEq, Repr

/-- The except clauses of `validate_xml`, in their order in the source:
`except etree.XMLSchemaError` then `except Exception`. -/
def handleExc : PyExc → String
  | .xmlSchemaError m => "XML is invalid: " ++ m
  | .otherError m => "An error occurred: " ++ m

/-- Shallow embedding of `validate_xml(xsd_file, xml_file)` from
`sandbox.ipynb`: the try block reads and parses the XSD and builds the
schema, parses the XML document, then calls `schema.assertValid`; each
fallible step enters as its outcome, and the first raising step routes to
the matching except clause.  Every path returns a string, so the function
is total at its interface. -/
def validate_xml (parseSchema parseDoc assertValid : Except PyExc Unit) : String :=
  match parseSchema with
  | .error e => handleExc e
  | .ok _ =>
    match parseDoc with
    | .error e => handleExc e
    | .ok _ =>
      match assertValid with
      | .error e => handleExc e
      | .ok _ => "XML is valid."

/-- C9: `validate_xml` returns a string on every input — exactly
`"XML is valid."` when schema parsing, document parsing and `assertValid`
all succeed, a string prefixed `"XML is invalid: "` on an
`XMLSchemaError`, a string prefixed `"An error occurred: "` on any other
exception, and nothing else. -/
theorem validate_xml_total (s1 s2 s3 : Except PyExc Unit) :
    (s1 = .ok () → s2 = .ok () → s3 = .ok () →
      validate_xml s1 s2 s3 = "XML is valid.") ∧
    (validate_xml s1 s2 s3 = "XML is valid." ∨
      (∃ m, validate_xml s1 s2 s3 = "XML is invalid: " ++ m) ∨
      (∃ m, validate_xml s1 s2 s3 = "An error occurred: " ++ m)) ∧
    (∀ m, s1 = .error (.xmlSchemaError m) →
      validate_xml s1 s2 s3 = "XML is invalid: " ++ m) ∧
    (∀ m, s1 = .error (.otherError m) →
      validate_xml s1 s2 s3 = "An error occurred: " ++ m) := by
  refine ⟨?_, ?_, ?_, ?_⟩
  · intro h1 h2 h3
    rw [h1, h2, h3]
    rfl
  · cases s1 with
    | error e =>
        cases e with
        | xmlSchemaError m => exact Or.inr (Or.inl ⟨m, rfl⟩)
        | otherError m => exact Or.inr (Or.inr ⟨m, rfl⟩)
    | ok u =>
        cases s2 with
        | error e =>
            cases e with
            | xmlSchemaError m => exact Or.inr (Or.inl ⟨m, rfl⟩)
            | otherError m => exact Or.inr (Or.inr ⟨m, rfl⟩)
        | ok u2 =>
            cases s3 with
            | error e =>
                cases e with
                | xmlSchemaError m => exact Or.inr (Or.inl ⟨m, rfl⟩)
                | otherError m => exact Or.inr (Or.inr ⟨m, rfl⟩)
            | ok u3 => exact Or.inl rfl
  · intro m hm
    rw [hm]
    rfl
  · intro m hm
    rw [hm]
    rfl

/-! ## The web client's saved-mission store (web client script) -/

/-- A saved mission as the web client stores it: `id` is its key (the empty
string standing for JS falsy ids, and a null entry behaves like one), and a
field absent from the JSON object is `none`, which an object spread leaves
untouched. -/
structure Mission where
  id : String
  createdAt : Option Nat
  prompt : Option String
deriving DecidableEq, Repr

/-- The `(mission.createdAt || 0)` of the client code. -/
def Mission.createdAtOrZero (m : Mission) : Nat :=
  m.createdAt.getD 0

/-- The JS object spread of `b` over `a`: fields present on `b` win, absent
fields fall back to `a`. -/
def jsSpread (a b : Mission) : Mission :=
  { id := b.id
    createdAt := b.createdAt.or a.createdAt
    prompt := b.prompt.or a.prompt }

/-- `Map.set` on a map kept as an insertion-ordered association list keyed
by mission id: replace in place when the key is present, else append. -/
def mapSet (acc : List Mission) (x : Mission) : List Mission :=
  if acc.any (fun y => y.id == x.id) then
    acc.map (fun y => if y.id == x.id then x else y)
  else acc ++ [x]


/-- The body of the first `forEach` of `mergeMissionLists`: an existing
mission enters the map under its id; entries without an id are skipped. -/
def mergeStepExisting (acc : List Mission) (mission : Mission) : List Mission :=
  if mission.id == "" then acc else mapSet acc mission

/-- The body of the second `forEach` of `mergeMissionLists`: an incoming
mission wins over the current entry of the same id when its `createdAt` is
at least the current one's — its fields spreading over the current
entry — else the current entry's fields win; entries without an id are
skipped. -/
def mergeStepIncoming (acc : List Mission) (mission : Mission) : List Mission :=
  if mission.id == "" then acc
  else
    match acc.find? (fun y => y.id == mission.id) with
    | none => mapSet acc mission
    | some current =>
        if current.createdAtOrZero ≤ mission.createdAtOrZero then
          mapSet acc (jsSpread current mission)
        else mapSet acc (jsSpread mission current)

/-- `mergeMissionLists(existing, incoming)` from the web client: existing
missions enter an insertion-ordered map keyed by id, incoming missions are
merged over them, and the values are sorted newest-first (the ES sort
comparator `(b.createdAt || 0) - (a.createdAt || 0)`; a JS `Map` keeps
insertion order and the ES sort is stable, as `mergeSort` is). -/
def mergeMissionLists (existing incoming : List Mission) : List Mission :=
  (incoming.foldl mergeStepIncoming (existing.foldl mergeStepExisting [])).mergeSort
    (fun a b => b.createdAtOrZero ≤ a.createdAtOrZero)

/-- `saveMissionToStorage(mission)` from the web client: `none` when the
guard returns without writing, else the list written to storage — the
stored list with the mission replaced in place or prepended, truncated to
its first 25 entries. -/
def saveMissionToStorage (stored : List Mission) (mission : Mission) :
    Option (List Mission) :=
  if mission.id == "" then none
  else
    let missions :=
      match stored.findIdx? (fun item => item.id == mission.id) with
      | some i => stored.set i mission
      | none => mission :: stored
    some (missions.take 25)

/-- `hydrateSavedMissionsFromServer` from the web client, after a
successful fetch: `none` on the early return for an empty server list,
else the merged list truncated to 25 entries, as written to storage. -/
def hydrateSavedMissionsFromServer (localStored serverMissions : List Mission) :
    Option (List Mission) :=
  if serverMissions.isEmpty then none
  else some ((mergeMissionLists localStored serverMissions).take 25)

theorem mapSet_map_id (acc : List Mission) (x : Mission) :
    (mapSet acc x).map Mission.id
      = if acc.any (fun y => y.id == x.id) then acc.map Mission.id
        else acc.map Mission.id ++ [x.id] := by
  unfold mapSet
  by_cases hc : acc.any (fun y => y.id == x.id)
  · rw [if_pos hc, if_pos hc, List.map_map]
    apply List.map_congr_left
    intro y _
    by_cases hy : y.id == x.id
    · simp only [Function.comp_apply, if_pos hy]
      exact (eq_of_beq hy).symm
    · simp only [Function.comp_apply, if_neg hy]
  · rw [if_neg hc, if_neg hc, List.map_append]
    rfl

theorem mapSet_keyNodup (acc : List Mission) (x : Mission)
    (h : (acc.map Mission.id).Nodup) : ((mapSet acc x).map Mission.id).Nodup := by
  rw [mapSet_map_id]
  by_cases hc : acc.any (fun y => y.id == x.id)
  · rwa [if_pos hc]
  · rw [if_neg hc]
    rw [List.nodup_append]
    refine ⟨h, List.nodup_singleton x.id, ?_⟩
    intro a ha hb
    rw [List.mem_singleton] at hb
    subst hb
    rw [List.mem_map] at ha
    obtain ⟨y, hy, hid⟩ := ha
    apply hc
    rw [List.any_eq_true]
    exact ⟨y, hy, by simp [hid]⟩

theorem foldl_keyNodup (step : List Mission → Mission → List Mission)
    (hstep : ∀ acc m, (acc.map Mission.id).Nodup → ((step acc m).map Mission.id).Nodup) :
    ∀ (l : List Mission) (acc : List Mission),
      (acc.map Mission.id).Nodup → ((l.foldl step acc).map Mission.id).Nodup := by
  intro l
  induction l with
  | nil => intro acc h; exact h
  | cons m rest ih =>
      intro acc h
      rw [List.foldl_cons]
      exact ih (step acc m) (hstep acc m h)

theorem mergeStepExisting_keyNodup (acc : List Mission) (m : Mission)
    (h : (acc.map Mission.id).Nodup) :
    ((mergeStepExisting acc m).map Mission.id).Nodup := by
  unfold mergeStepExisting
  by_cases hm : m.id == ""
  · rwa [if_pos hm]
  · rw [if_neg hm]
    exact mapSet_keyNodup acc m h

theorem mergeStepIncoming_keyNodup (acc : List Mission) (m : Mission)
    (h : (acc.map Mission.id).Nodup) :
    ((mergeStepIncoming acc m).map Mission.id).Nodup := by
  unfold mergeStepIncoming
  by_cases hm : m.id == ""
  · rwa [if_pos hm]
  · rw [if_neg hm]
    cases acc.find? (fun y => y.id == m.id) with
    | none => exact mapSet_keyNodup acc m h
    | some current =>
        dsimp only
        by_cases hle : current.createdAtOrZero ≤ m.createdAtOrZero
        · rw [if_pos hle]
          exact mapSet_keyNodup acc (jsSpread current m) h
        · rw [if_neg hle]
          exact mapSet_keyNodup acc (jsSpread m current) h

theorem mergeMissionLists_keyNodup (existing incoming : List Mission) :
    ((mergeMissionLists existing incoming).map Mission.id).Nodup := by
  unfold mergeMissionLists
  have hm1 := foldl_keyNodup mergeStepExisting mergeStepExisting_keyNodup existing []
    (by simp)
  have hm2 := foldl_keyNodup mergeStepIncoming mergeStepIncoming_keyNodup incoming _ hm1
  have hperm := List.mergeSort_perm
    (incoming.foldl mergeStepIncoming (existing.foldl mergeStepExisting []))
    (fun a b => b.createdAtOrZero ≤ a.createdAtOrZero)
  exact ((hperm.map Mission.id).symm).nodup hm2

theorem mergeMissionLists_sorted (existing incoming : List Mission) :
    (mergeMissionLists existing incoming).Pairwise
      (fun a b => b.createdAtOrZero ≤ a.createdAtOrZero) := by
  unfold mergeMissionLists
  have htrans : ∀ a b c : Mission,
      decide (b.createdAtOrZero ≤ a.createdAtOrZero) = true →
      decide (c.createdAtOrZero ≤ b.createdAtOrZero) = true →
      decide (c.createdAtOrZero ≤ a.createdAtOrZero) = true := by
    intro a b c h1 h2
    simp only [decide_eq_true_eq] at h1 h2 ⊢
    omega
  have htotal : ∀ a b : Mission,
      (decide (b.createdAtOrZero ≤ a.createdAtOrZero)
        || decide (a.createdAtOrZero ≤ b.createdAtOrZero)) = true := by
    intro a b
    simp only [Bool.or_eq_true, decide_eq_true_eq]
    exact Nat.le_total _ _
  have h := @List.sorted_mergeSort Mission
    (fun a b => decide (b.createdAtOrZero ≤ a.createdAtOrZero)) htrans htotal
    (incoming.foldl mergeStepIncoming (existing.foldl mergeStepExisting []))
  exact h.imp (fun hab => by simpa using hab)

/-- C10: each mutating operation of the saved-mission store writes at most
25 missions — `saveMissionToStorage` truncates to the first 25 entries,
and `hydrateSavedMissionsFromServer` writes the merged list, deduplicated
by mission id, sorted newest-first and truncated to 25. -/
theorem saved_missions_bounded (stored : List Mission) (mission : Mission)
    (localStored serverMissions : List Mission) :
    (∀ out, saveMissionToStorage stored mission = some out → out.length ≤ 25) ∧
    (∀ out, hydrateSavedMissionsFromServer localStored serverMissions = some out →
      out.length ≤ 25 ∧ (out.map Mission.id).Nodup ∧
      out.Pairwise (fun a b => b.createdAtOrZero ≤ a.createdAtOrZero)) := by
  constructor
  · intro out h
    unfold saveMissionToStorage at h
    by_cases hm : mission.id == ""
    · rw [if_pos hm] at h
      cases h
    · rw [if_neg hm] at h
      simp only [Option.some.injEq] at h
      subst h
      exact List.length_take_le 25 _
  · intro out h
    unfold hydrateSavedMissionsFromServer at h
    by_cases he : serverMissions.isEmpty
    · rw [if_pos he] at h
      cases h
    · rw [if_neg he] at h
      simp only [Option.some.injEq] at h
      subst h
      refine ⟨List.length_take_le 25 _, ?_, ?_⟩
      · rw [List.map_take]
        exact List.Nodup.sublist (List.take_sublist 25 _)
          (mergeMissionLists_keyNodup localStored serverMissions)
      · exact List.Pairwise.sublist (List.take_sublist 25 _)
          (mergeMissionLists_sorted localStored serverMissions)
